import Mathlib

/-!
# mini-http-server: request handling and connection table

A shallow embedding of `src/main.c` (a small Winsock HTTP server) and the
properties of its request-to-response translation, its path resolution, its
client table and its single-shot socket handler.

## Conventions of the embedding

* A C string (`char *` read by `strlen`, `strchr`, `strcmp`, `strcat`, ...) is
  the list of the characters that precede its terminating zero byte: `CStr`.
* Raw bytes (the content of a file on disk) are a `List Char` that may hold the
  zero byte `NUL`; `cstr` is the C string a reader sees in a buffer that holds
  such bytes followed by a terminator.
* A pointer into a C string is the suffix of the string that starts there, so
  the difference of two pointers into one string is the difference of the
  lengths of the two suffixes.
* Calls whose behaviour C leaves undefined give `none`: `strchr` on the null
  result of a previous `strchr`, pointer difference with a null pointer, and
  `free` of a pointer to a string literal. A function that reaches such a call
  returns nothing, whatever it has computed before.
* `free` of storage that `malloc` returned has no effect on the values and is
  not shown. The capacities of the buffers the code allocates are not part of
  the embedding: the string operations are taken on the values of the strings.
-/

namespace MiniHttpServer

/-! ## C strings -/

/-- A C string: the characters before the terminating zero byte. -/
abbrev CStr := List Char

/-- The zero byte that terminates a C string. -/
def NUL : Char := Char.ofNat 0

/-- The C string read from a buffer that holds `buf` followed by a terminator:
the bytes before the first zero byte. -/
def cstr (buf : List Char) : CStr := buf.takeWhile (fun c => c ≠ NUL)

/-- `strchr(s, ch)`: the suffix of `s` that starts at the first `ch`, `none`
(the null pointer) when `s` holds no `ch`. -/
def strchr : CStr → Char → Option CStr
  | [], _ => none
  | c :: cs, ch => if c = ch then some (c :: cs) else strchr cs ch

/-- `strstr(haystack, needle)`: the suffix of `haystack` that starts at the
first occurrence of `needle`, `none` (the null pointer) when there is none. -/
def strstr : CStr → CStr → Option CStr
  | [], needle => if needle = [] then some [] else none
  | c :: cs, needle =>
    if needle.isPrefixOf (c :: cs) then some (c :: cs) else strstr cs needle

/-- `strcmp(a, b)`: zero when the strings are equal, else the sign of the
first difference (a string that ends first is the smaller). -/
def strcmp : CStr → CStr → Int
  | [], [] => 0
  | [], _ :: _ => -1
  | _ :: _, [] => 1
  | a :: as, b :: bs => if a = b then strcmp as bs else if a < b then -1 else 1

/-- `strcpy(dst, src)`: the string at `dst` afterwards. -/
def strcpy (src : CStr) : CStr := src

/-- `strcat(dst, src)`: the string at `dst` afterwards. -/
def strcat (dst src : CStr) : CStr := dst ++ src

/-- `strncpy(dst, src, n)` followed by a terminator stored at index `n`, for
`n` at most `strlen(src)`: the first `n` characters of `src`. -/
def strncpy (src : CStr) (n : Nat) : CStr := src.take n

/-! ## Constants -/

/-- `DEFAULT_SERVERROOT`, the C literal `"C:\\webserver"`. -/
def DEFAULT_SERVERROOT : CStr := "C:\\webserver".toList

/-- `DEFAULT_MAXCLIENTS`. -/
def DEFAULT_MAXCLIENTS : Nat := 30

/-- `SOCKET_ERROR` of Winsock. -/
def SOCKET_ERROR : Int := -1

/-- `WSAECONNRESET` of Winsock. -/
def WSAECONNRESET : Int := 10054

/-! ## Path resolver and static content loader -/

/-- The loop of `resolvePathname`: `resolvedFilename[i]` is a backslash where
`filename[i]` is a slash, and `filename[i]` elsewhere, up to the terminator. -/
def resolveLoop : CStr → CStr
  | [] => []
  | c :: cs => (if c = '/' then '\\' else c) :: resolveLoop cs

/-- `resolvePathname(filename)`: the server root followed by the translated
file name. -/
def resolvePathname (filename : CStr) : CStr :=
  let resolvedFilename := resolveLoop filename
  let pathname := strcpy DEFAULT_SERVERROOT
  strcat pathname resolvedFilename

/-- The files `fopen(pathname, "rb")` can open: for each pathname, the bytes
of the file, or `none` when `fopen` returns the null pointer. -/
abbrev FileSystem := CStr → Option (List Char)

/-- `getFileContent(filename)`: `none` (the null pointer) when the file cannot
be opened; otherwise a buffer that holds the `fileSize` bytes of the file and
a zero byte at index `fileSize`, returned as a `char *`: the C string the
caller reads there. -/
def getFileContent (fs : FileSystem) (filename : CStr) : Option CStr :=
  let pathname := resolvePathname filename
  match fs pathname with
  | some fileBytes => some (cstr fileBytes)
  | none => none

/-! ## Request interpreter and response builder -/

/-- The first lines of `processGetRequest`: `startOfPath` is the first slash
of the request, `endOfPath` the first space from there on, and `path` the
`endOfPath - startOfPath` characters between them. With a null `startOfPath`
or `endOfPath` the extraction is undefined. (The source declares `path` with
exactly `endOfPath - startOfPath` elements and stores the terminator one past
them; the embedding takes the string the code means to build.) -/
def extractPath (HTTPRequest : CStr) : Option CStr :=
  match strchr HTTPRequest '/' with
  | none => none
  | some startOfPath =>
    match strchr startOfPath ' ' with
    | none => none
    | some endOfPath =>
      some (strncpy startOfPath (startOfPath.length - endOfPath.length))

/-- `processGetRequest(HTTPRequest)`: the response string, or `none` when the
call is undefined. It is undefined when the path extraction is, and when
neither the requested file nor `/404.html` can be opened: `content` is then the
string literal `"<h1>404 Not Found</h1>"`, and the `free(content)` that follows
the building of the response is applied to that literal. (The source allocates
`strlen(HTTPVersion) + strlen(status) + strlen(content) + 1` bytes for the
response, three fewer than it writes; capacities are not part of the
embedding.) -/
def processGetRequest (fs : FileSystem) (HTTPRequest : CStr) : Option CStr :=
  match extractPath HTTPRequest with
  | none => none
  | some path =>
    let HTTPVersion : CStr := "HTTP/1.1".toList
    let status₀ : CStr := "200 OK".toList
    let (content₁, status₁) : Option CStr × CStr :=
      if strcmp path "/".toList = 0 ∨ strcmp path "/index.html".toList = 0 then
        (getFileContent fs "/index.html".toList, status₀)
      else if strcmp path "/error.html".toList = 0 then
        (getFileContent fs path, "500 Internal Server Error".toList)
      else
        (getFileContent fs path, status₀)
    let (content, status, contentFromMalloc) : CStr × CStr × Bool :=
      match content₁ with
      | some c => (c, status₁, true)
      | none =>
        match getFileContent fs "/404.html".toList with
        | some c => (c, "404 Not Found".toList, true)
        | none => ("<h1>404 Not Found</h1>".toList, "404 Not Found".toList, false)
    let response := strcpy HTTPVersion
    let response := strcat response " ".toList
    let response := strcat response status
    let response := strcat response "\n\n".toList
    let response := strcat response content
    -- free(content)
    if contentFromMalloc then some response else none

/-- `getHTTPRequestMethod(HTTPRequest)`: `"GET"` when the request holds the
characters `GET` anywhere, else `none` (the null pointer). -/
def getHTTPRequestMethod (HTTPRequest : CStr) : Option CStr :=
  if (strstr HTTPRequest "GET".toList).isSome then some "GET".toList else none

/-- The fixed response to a request that is not a GET request. -/
def methodNotAllowed : CStr :=
  "HTTP/1.1 405 Method Not Allowed\n\n<h1>405 Method Not Allowed</h1>".toList

/-- `getHTTPResponse(HTTPRequest)`: the string at the pointer it returns. The
pointer is the one `processGetRequest` returns (storage from `malloc`) for a
GET request, and a pointer to a string literal otherwise. -/
def getHTTPResponse (fs : FileSystem) (HTTPRequest : CStr) : Option CStr :=
  match getHTTPRequestMethod HTTPRequest with
  | some requestMethod =>
    if strcmp requestMethod "GET".toList = 0 then processGetRequest fs HTTPRequest
    else some methodNotAllowed
  | none => some methodNotAllowed

/-- Whether the pointer `getHTTPResponse` returns points to the string literal
of its else branch rather than to storage from `malloc`. -/
def responseIsLiteral (HTTPRequest : CStr) : Bool :=
  match getHTTPRequestMethod HTTPRequest with
  | some requestMethod => if strcmp requestMethod "GET".toList = 0 then false else true
  | none => true

/-! ## Connection table -/

/-- The insert loop of `acceptNewConnection`, from index `i` with `n` rounds
to go: the first slot that holds 0 receives `RecentSocket` and the loop
breaks. -/
def acceptLoop (RecentSocket : Nat) (ClientSocketList : List Nat) : Nat → Nat → List Nat
  | 0, _ => ClientSocketList
  | n + 1, i =>
    if ClientSocketList.getD i 0 = 0 then ClientSocketList.set i RecentSocket
    else acceptLoop RecentSocket ClientSocketList n (i + 1)

/-- The counting loop of `getConnectedClientsCount`, from index `i` with `n`
rounds to go. -/
def countLoop (ClientSocketList : List Nat) : Nat → Nat → Nat → Nat
  | 0, _, count => count
  | n + 1, i, count =>
    countLoop ClientSocketList n (i + 1)
      (if ClientSocketList.getD i 0 ≠ 0 then count + 1 else count)

/-- `getConnectedClientsCount(ClientSocketList)`. -/
def getConnectedClientsCount (ClientSocketList : List Nat) : Nat :=
  countLoop ClientSocketList DEFAULT_MAXCLIENTS 0 0

/-- `acceptNewConnection(ServerSocket, ClientSocketList)`: `accepted` is what
`accept` returns, `none` for `INVALID_SOCKET`. The result is the return value,
the client table afterwards and the count the function prints. -/
def acceptNewConnection (accepted : Option Nat) (ClientSocketList : List Nat) :
    Int × List Nat × Option Nat :=
  match accepted with
  | none => (0, ClientSocketList, none)
  | some RecentSocket =>
    let ClientSocketList := acceptLoop RecentSocket ClientSocketList DEFAULT_MAXCLIENTS 0
    (1, ClientSocketList, some (getConnectedClientsCount ClientSocketList))

/-! ## Single-shot request handler -/

/-- What the handler does to the outside, in order. -/
inductive Effect where
  | logSocket (socket : Nat) (message : String)
  | logSockError (message : String)
  | logHTTPMessage (title : String) (content : CStr) (socket : Nat)
  | send (socket : Nat) (data : CStr)
  | shutdownSend (socket : Nat)
  | closesocket (socket : Nat)
  deriving DecidableEq, Repr

/-- What the system calls of one run of `processSocketActivity` return. -/
structure SocketCalls where
  /-- The return value of `recv`: `SOCKET_ERROR`, 0, or the number of bytes. -/
  recvResult : Int
  /-- The C string at `HTTPRequest` once `recv` has returned (the buffer comes
  from `malloc` and the handler stores no terminator in it). -/
  request : CStr
  /-- The value of `WSAGetLastError()` after `recv`. -/
  lastError : Int
  /-- The return value of `send`. -/
  sendResult : Int
  /-- The return value of `shutdown`. -/
  shutdownResult : Int

/-- `processSocketActivity(ClientSocketList, socketIndex)`: the return value,
the client table afterwards and the effects, or `none` when the call is
undefined. It is undefined when `getHTTPResponse` is, and when the response has
been sent and the `free(HTTPResponse)` that follows is applied to the string
literal of the 405 response. -/
def processSocketActivity (fs : FileSystem) (sys : SocketCalls)
    (ClientSocketList : List Nat) (socketIndex : Nat) :
    Option (Int × List Nat × List Effect) :=
  let ClientSocketItem := ClientSocketList.getD socketIndex 0
  let success := sys.recvResult
  let log₁ : List Effect :=
    if success = SOCKET_ERROR then
      if sys.lastError = WSAECONNRESET then
        [Effect.logSocket ClientSocketItem "Desconectou inesperadamente."]
      else
        [Effect.logSockError "Falha ao receber dados do cliente."]
    else []
  let close (log : List Effect) : Option (Int × List Nat × List Effect) :=
    some (1, ClientSocketList.set socketIndex 0, log ++ [Effect.closesocket ClientSocketItem])
  if success = 0 then
    close (log₁ ++ [Effect.logSocket ClientSocketItem "Desconectado."])
  else
    let log₂ := log₁ ++ [Effect.logHTTPMessage "HTTP Request" sys.request ClientSocketItem]
    match getHTTPResponse fs sys.request with
    | none => none
    | some HTTPResponse =>
      let log₃ := log₂ ++ [Effect.send ClientSocketItem HTTPResponse]
      if sys.sendResult = SOCKET_ERROR then
        some (0, ClientSocketList,
          log₃ ++ [Effect.logSockError "Falha ao enviar a resposta HTTP."])
      else
        let log₄ := log₃ ++ [Effect.shutdownSend ClientSocketItem]
        if sys.shutdownResult = SOCKET_ERROR then
          some (0, ClientSocketList,
            log₄ ++ [Effect.logSockError "Falha ao desligar o Socket cliente."])
        else
          -- free(HTTPResponse)
          if responseIsLiteral sys.request then none
          else
            close (log₄ ++
              [Effect.logHTTPMessage "HTTP Response" HTTPResponse ClientSocketItem,
                Effect.logSocket ClientSocketItem "Atendido. Fechando a conexao..."])

/-! ## Vocabulary of the properties -/

/-- The file `processGetRequest` loads for an extracted path: `/index.html`
for `/` and `/index.html`, the path itself otherwise. -/
def loadedFile (path : CStr) : CStr :=
  if path = "/".toList ∨ path = "/index.html".toList then "/index.html".toList else path

/-- The method token of a request as the specification words it: the first
word of the request line. -/
def methodToken (HTTPRequest : CStr) : CStr := HTTPRequest.takeWhile (fun c => c ≠ ' ')

/-- A server root under which no file can be opened. -/
def emptyRoot : FileSystem := fun _ => none

/-- A server root under which exactly one file can be opened. -/
def singleFile (pathname : CStr) (fileBytes : List Char) : FileSystem :=
  fun asked => if asked = pathname then some fileBytes else none

/-- A client table of 30 slots whose slot 0 holds the handle 5 and whose other
slots are empty. -/
def oneClient : List Nat := 5 :: List.replicate 29 0

/-- A client table of 30 slots that all hold the handle 5. -/
def fullTable : List Nat := List.replicate 30 5

/-! ## Facts about the string functions -/

theorem strcmp_eq_zero_iff (a b : CStr) : strcmp a b = 0 ↔ a = b := by
  induction a generalizing b with
  | nil => cases b <;> simp [strcmp]
  | cons x xs ih =>
    cases b with
    | nil => simp [strcmp]
    | cons y ys =>
      by_cases hxy : x = y
      · simp [strcmp, hxy, ih]
      · by_cases hlt : x < y <;> simp [strcmp, hxy, hlt]

theorem strchr_eq_none_iff (s : CStr) (ch : Char) : strchr s ch = none ↔ ch ∉ s := by
  induction s with
  | nil => simp [strchr]
  | cons c cs ih =>
    by_cases h : c = ch
    · simp [strchr, h]
    · have h2 : ¬ ch = c := fun e => h e.symm
      simp [strchr, h, h2, ih]

theorem strchr_eq_some_iff (s suf : CStr) (ch : Char) :
    strchr s ch = some suf ↔
      ∃ pre rest, s = pre ++ ch :: rest ∧ ch ∉ pre ∧ suf = ch :: rest := by
  induction s with
  | nil => simp [strchr]
  | cons c cs ih =>
    by_cases h : c = ch
    · subst h
      constructor
      · intro hs
        simp only [strchr, if_true, Option.some.injEq] at hs
        exact ⟨[], cs, by simp, by simp, hs.symm⟩
      · rintro ⟨pre, rest, hs, hpre, hsuf⟩
        cases pre with
        | nil =>
          simp only [List.nil_append, List.cons.injEq, true_and] at hs
          simp [strchr, hsuf, hs]
        | cons d ds =>
          simp only [List.cons_append, List.cons.injEq] at hs
          exact absurd (by simp [hs.1]) hpre
    · constructor
      · intro hs
        simp only [strchr, h, if_false] at hs
        obtain ⟨pre, rest, h1, h2, h3⟩ := ih.mp hs
        refine ⟨c :: pre, rest, by simp [h1], ?_, h3⟩
        simp only [List.mem_cons, not_or]
        exact ⟨fun e => h e.symm, h2⟩
      · rintro ⟨pre, rest, hs, hpre, hsuf⟩
        cases pre with
        | nil =>
          simp only [List.nil_append, List.cons.injEq] at hs
          exact absurd hs.1 h
        | cons d ds =>
          simp only [List.cons_append, List.cons.injEq] at hs
          simp only [List.mem_cons, not_or] at hpre
          simp only [strchr, h, if_false]
          exact ih.mpr ⟨ds, rest, hs.2, hpre.2, hsuf⟩

theorem strstr_isSome_iff (hay needle : CStr) :
    (strstr hay needle).isSome ↔ needle <:+: hay := by
  induction hay with
  | nil =>
    by_cases h : needle = []
    · simp [strstr, h]
    · simp [strstr, h]
  | cons c cs ih =>
    by_cases h : needle.isPrefixOf (c :: cs) = true
    · simp only [strstr, h, if_true, Option.isSome_some, true_iff]
      exact (List.isPrefixOf_iff_prefix.mp h).isInfix
    · have hp : ¬ needle <+: c :: cs := fun hp => h (List.isPrefixOf_iff_prefix.mpr hp)
      rw [List.infix_cons_iff]
      simp [strstr, h, hp, ih]

/-! ## Facts about the path extraction -/

theorem strncpy_pointer_difference (a b : CStr) :
    strncpy (a ++ b) ((a ++ b).length - b.length) = a := by
  have h : (a ++ b).length - b.length = a.length := by simp
  rw [h]
  simp [strncpy]

theorem extractPath_eq_some_iff (req p : CStr) :
    extractPath req = some p ↔
      ∃ pre q post, req = pre ++ ('/' :: q ++ ' ' :: post) ∧ '/' ∉ pre ∧ ' ' ∉ q ∧
        p = '/' :: q := by
  constructor
  · intro h
    unfold extractPath at h
    cases h1 : strchr req '/' with
    | none => simp [h1] at h
    | some start =>
      obtain ⟨pre, rest, hreq, hpre, hstart⟩ := (strchr_eq_some_iff _ _ _).mp h1
      subst hstart
      cases h2 : strchr ('/' :: rest) ' ' with
      | none => simp [h1, h2] at h
      | some stop =>
        obtain ⟨pre2, rest2, hst, hpre2, hstop⟩ := (strchr_eq_some_iff _ _ _).mp h2
        subst hstop
        simp only [h1, h2, Option.some.injEq] at h
        cases pre2 with
        | nil => simp at hst
        | cons d ds =>
          simp only [List.cons_append, List.cons.injEq] at hst
          obtain ⟨hd, hrest⟩ := hst
          subst hd
          simp only [List.mem_cons, not_or] at hpre2
          refine ⟨pre, ds, rest2, by simp [hreq, hrest], hpre, hpre2.2, ?_⟩
          rw [← h, hrest]
          exact strncpy_pointer_difference ('/' :: ds) (' ' :: rest2)
  · rintro ⟨pre, q, post, hreq, hpre, hq, hp⟩
    have h1 : strchr req '/' = some ('/' :: (q ++ ' ' :: post)) :=
      (strchr_eq_some_iff _ _ _).mpr ⟨pre, q ++ ' ' :: post, by simp [hreq], hpre, rfl⟩
    have h2 : strchr ('/' :: (q ++ ' ' :: post)) ' ' = some (' ' :: post) :=
      (strchr_eq_some_iff _ _ _).mpr
        ⟨'/' :: q, post, by simp, by simp [hq], rfl⟩
    simp only [extractPath, h1, h2, hp, Option.some.injEq]
    exact strncpy_pointer_difference ('/' :: q) (' ' :: post)

theorem extractPath_isSome_iff (req : CStr) :
    (extractPath req).isSome ↔
      ∃ pre rest, req = pre ++ '/' :: rest ∧ '/' ∉ pre ∧ ' ' ∈ rest := by
  constructor
  · intro h
    obtain ⟨p, hp⟩ := Option.isSome_iff_exists.mp h
    obtain ⟨pre, q, post, hreq, hpre, -, -⟩ := (extractPath_eq_some_iff _ _).mp hp
    exact ⟨pre, q ++ ' ' :: post, by simp [hreq], hpre, by simp⟩
  · rintro ⟨pre, rest, hreq, hpre, hsp⟩
    have h1 : strchr req '/' = some ('/' :: rest) :=
      (strchr_eq_some_iff _ _ _).mpr ⟨pre, rest, hreq, hpre, rfl⟩
    cases h2 : strchr ('/' :: rest) ' ' with
    | none =>
      have := (strchr_eq_none_iff _ _).mp h2
      exact absurd (List.mem_cons_of_mem _ hsp) this
    | some stop => simp [extractPath, h1, h2]

/-! ## Facts about the response builder -/

theorem cstr_of_no_NUL (buf : List Char) (h : NUL ∉ buf) : cstr buf = buf := by
  unfold cstr
  rw [List.takeWhile_eq_self_iff]
  intro c hc
  have : c ≠ NUL := fun e => h (e ▸ hc)
  simpa using this

theorem cstr_split (buf : List Char) :
    ∃ rest, buf = cstr buf ++ rest ∧ NUL ∉ cstr buf ∧ (rest = [] ∨ rest.head? = some NUL) := by
  induction buf with
  | nil => exact ⟨[], by simp [cstr]⟩
  | cons c cs ih =>
    obtain ⟨rest, h1, h2, h3⟩ := ih
    by_cases hc : c = NUL
    · exact ⟨c :: cs, by simp [cstr, hc]⟩
    · refine ⟨rest, ?_, ?_, h3⟩
      · have : cstr (c :: cs) = c :: cstr cs := by simp [cstr, hc]
        rw [this, List.cons_append, ← h1]
      · have : cstr (c :: cs) = c :: cstr cs := by simp [cstr, hc]
        rw [this]
        simp only [List.mem_cons, not_or]
        exact ⟨fun e => hc e.symm, h2⟩

theorem processGetRequest_found (fs : FileSystem) (req p : CStr) (fileBytes : List Char)
    (hp : extractPath req = some p) (hf : fs (resolvePathname (loadedFile p)) = some fileBytes) :
    processGetRequest fs req = some ("HTTP/1.1 ".toList ++
      (if p = "/error.html".toList then "500 Internal Server Error".toList else "200 OK".toList)
      ++ "\n\n".toList ++ cstr fileBytes) := by
  have hv : "HTTP/1.1 ".toList = "HTTP/1.1".toList ++ " ".toList := by decide
  unfold loadedFile at hf
  by_cases h1 : p = "/".toList ∨ p = "/index.html".toList
  · have he : p ≠ "/error.html".toList := by
      rcases h1 with h | h <;> rw [h] <;> decide
    rw [if_pos h1] at hf
    simp only [processGetRequest, if_true, if_false, Bool.false_eq_true, hp, strcmp_eq_zero_iff, if_pos h1, getFileContent, hf,
      strcpy, strcat, if_neg he, hv]
  · rw [if_neg h1] at hf
    by_cases he : p = "/error.html".toList
    · simp only [processGetRequest, if_true, if_false, Bool.false_eq_true, hp, strcmp_eq_zero_iff, if_neg h1, getFileContent, hf,
        strcpy, strcat, if_pos he, hv]
    · simp only [processGetRequest, if_true, if_false, Bool.false_eq_true, hp, strcmp_eq_zero_iff, if_neg h1, getFileContent, hf,
        strcpy, strcat, if_neg he, hv]

theorem processGetRequest_missing (fs : FileSystem) (req p : CStr)
    (hp : extractPath req = some p) (hf : fs (resolvePathname (loadedFile p)) = none) :
    processGetRequest fs req =
      (match fs (resolvePathname "/404.html".toList) with
        | some fileBytes => some ("HTTP/1.1 404 Not Found\n\n".toList ++ cstr fileBytes)
        | none => none) := by
  have hv : "HTTP/1.1 404 Not Found\n\n".toList
      = "HTTP/1.1".toList ++ " ".toList ++ "404 Not Found".toList ++ "\n\n".toList := by decide
  unfold loadedFile at hf
  by_cases h1 : p = "/".toList ∨ p = "/index.html".toList
  · rw [if_pos h1] at hf
    cases h4 : fs (resolvePathname "/404.html".toList) <;>
      simp only [processGetRequest, if_true, if_false, Bool.false_eq_true, hp, strcmp_eq_zero_iff, if_pos h1, getFileContent, hf, h4,
        strcpy, strcat, hv]
  · rw [if_neg h1] at hf
    by_cases he : p = "/error.html".toList
    · cases h4 : fs (resolvePathname "/404.html".toList) <;>
        simp only [processGetRequest, if_true, if_false, Bool.false_eq_true, hp, strcmp_eq_zero_iff, if_neg h1, getFileContent, hf, h4,
          strcpy, strcat, if_pos he, hv]
    · cases h4 : fs (resolvePathname "/404.html".toList) <;>
        simp only [processGetRequest, if_true, if_false, Bool.false_eq_true, hp, strcmp_eq_zero_iff, if_neg h1, getFileContent, hf, h4,
          strcpy, strcat, if_neg he, hv]

theorem processGetRequest_isSome_iff (fs : FileSystem) (req : CStr) :
    (processGetRequest fs req).isSome ↔
      ∃ p, extractPath req = some p ∧
        ((fs (resolvePathname (loadedFile p))).isSome ∨
          (fs (resolvePathname "/404.html".toList)).isSome) := by
  cases hp : extractPath req with
  | none => simp [processGetRequest, hp]
  | some p =>
    cases hf : fs (resolvePathname (loadedFile p)) with
    | none =>
      rw [processGetRequest_missing fs req p hp hf]
      cases h4 : fs (resolvePathname "/404.html".toList) <;> simp [hf]
    | some fileBytes => simp [processGetRequest_found fs req p fileBytes hp hf, hf]

theorem getHTTPResponse_of_GET (fs : FileSystem) (req : CStr)
    (h : "GET".toList <:+: req) : getHTTPResponse fs req = processGetRequest fs req := by
  have hs : (strstr req "GET".toList).isSome = true := (strstr_isSome_iff _ _).mpr h
  have hc : strcmp "GET".toList "GET".toList = 0 := by decide
  simp only [getHTTPResponse, getHTTPRequestMethod, hs, if_true, hc]

theorem getHTTPResponse_of_not_GET (fs : FileSystem) (req : CStr)
    (h : ¬ "GET".toList <:+: req) : getHTTPResponse fs req = some methodNotAllowed := by
  have hs : ¬ (strstr req "GET".toList).isSome = true :=
    fun hs => h ((strstr_isSome_iff _ _).mp hs)
  unfold getHTTPResponse getHTTPRequestMethod
  rw [if_neg hs]

theorem getHTTPRequestMethod_eq_GET_iff (req : CStr) :
    getHTTPRequestMethod req = some "GET".toList ↔ "GET".toList <:+: req := by
  rw [← strstr_isSome_iff]
  unfold getHTTPRequestMethod
  constructor
  · intro h
    by_contra hs
    rw [if_neg hs] at h
    exact Option.noConfusion h
  · intro hs
    rw [if_pos hs]

theorem processGetRequest_literal_freed (fs : FileSystem) (req p : CStr)
    (hp : extractPath req = some p) (hf : fs (resolvePathname (loadedFile p)) = none)
    (h404 : fs (resolvePathname "/404.html".toList) = none) :
    processGetRequest fs req = none := by
  rw [processGetRequest_missing fs req p hp hf, h404]

theorem getHTTPResponse_root_index_same (fs : FileSystem) (reqRoot reqIndex : CStr)
    (hg₁ : getHTTPRequestMethod reqRoot = some "GET".toList)
    (hg₂ : getHTTPRequestMethod reqIndex = some "GET".toList)
    (hp₁ : extractPath reqRoot = some "/".toList)
    (hp₂ : extractPath reqIndex = some "/index.html".toList) :
    getHTTPResponse fs reqRoot = getHTTPResponse fs reqIndex ∧
    ((fs (resolvePathname "/index.html".toList)).isSome ∨
        (fs (resolvePathname "/404.html".toList)).isSome →
      ∃ response, getHTTPResponse fs reqRoot = some response) := by
  rw [getHTTPResponse_of_GET fs reqRoot ((getHTTPRequestMethod_eq_GET_iff _).mp hg₁),
    getHTTPResponse_of_GET fs reqIndex ((getHTTPRequestMethod_eq_GET_iff _).mp hg₂)]
  have hl₁ : loadedFile "/".toList = "/index.html".toList := by decide
  have hl₂ : loadedFile "/index.html".toList = "/index.html".toList := by decide
  have he₁ : ¬ "/".toList = "/error.html".toList := by decide
  have he₂ : ¬ "/index.html".toList = "/error.html".toList := by decide
  cases hf : fs (resolvePathname "/index.html".toList) with
  | none =>
    rw [processGetRequest_missing fs reqRoot _ hp₁ (by rw [hl₁]; exact hf),
      processGetRequest_missing fs reqIndex _ hp₂ (by rw [hl₂]; exact hf)]
    refine ⟨rfl, ?_⟩
    cases h4 : fs (resolvePathname "/404.html".toList) with
    | none => simp
    | some page => exact fun _ => ⟨_, rfl⟩
  | some page =>
    rw [processGetRequest_found fs reqRoot _ page hp₁ (by rw [hl₁]; exact hf),
      processGetRequest_found fs reqIndex _ page hp₂ (by rw [hl₂]; exact hf),
      if_neg he₁, if_neg he₂]
    exact ⟨rfl, fun _ => ⟨_, rfl⟩⟩

theorem getHTTPResponse_isSome_iff (fs : FileSystem) (req : CStr) :
    (getHTTPResponse fs req).isSome ↔
      (¬ "GET".toList <:+: req ∨
        ∃ p, extractPath req = some p ∧
          ((fs (resolvePathname (loadedFile p))).isSome ∨
            (fs (resolvePathname "/404.html".toList)).isSome)) := by
  by_cases hg : "GET".toList <:+: req
  · rw [getHTTPResponse_of_GET fs req hg, processGetRequest_isSome_iff]
    exact ⟨Or.inr, fun h => h.elim (fun hn => absurd hg hn) id⟩
  · rw [getHTTPResponse_of_not_GET fs req hg]
    exact ⟨fun _ => Or.inl hg, fun _ => rfl⟩

/-! ## Facts about the connection table -/

theorem acceptLoop_spec (h : Nat) (l : List Nat) (n i : Nat) :
    (∃ k, i ≤ k ∧ k < i + n ∧ l.getD k 0 = 0 ∧ (∀ j, i ≤ j → j < k → l.getD j 0 ≠ 0) ∧
        acceptLoop h l n i = l.set k h) ∨
      ((∀ j, i ≤ j → j < i + n → l.getD j 0 ≠ 0) ∧ acceptLoop h l n i = l) := by
  induction n generalizing i with
  | zero =>
    right
    exact ⟨fun j h1 h2 => absurd h2 (by omega), rfl⟩
  | succ n ih =>
    by_cases hz : l.getD i 0 = 0
    · left
      refine ⟨i, Nat.le_refl _, by omega, hz, fun j h1 h2 => absurd h2 (by omega), ?_⟩
      simp only [acceptLoop, hz, if_true]
    · have hstep : acceptLoop h l (n + 1) i = acceptLoop h l n (i + 1) := by
        simp only [acceptLoop, hz, if_false]
      rcases ih (i + 1) with ⟨k, hk1, hk2, hk3, hk4, hk5⟩ | ⟨hall, heq⟩
      · left
        refine ⟨k, by omega, by omega, hk3, ?_, by rw [hstep, hk5]⟩
        intro j h1 h2
        by_cases hj : j = i
        · rw [hj]; exact hz
        · exact hk4 j (by omega) h2
      · right
        refine ⟨?_, by rw [hstep, heq]⟩
        intro j h1 h2
        by_cases hj : j = i
        · rw [hj]; exact hz
        · exact hall j (by omega) (by omega)

theorem countLoop_spec (l : List Nat) (n i count : Nat) :
    countLoop l n i count
      = count + ((l.drop i).take n).countP (fun v => decide (v ≠ 0)) := by
  induction n generalizing i count with
  | zero => simp [countLoop]
  | succ n ih =>
    rw [countLoop, ih]
    by_cases hi : i < l.length
    · rw [List.drop_eq_getElem_cons hi, List.take_succ_cons, List.countP_cons,
        List.getD_eq_getElem l 0 hi]
      by_cases hv : l[i] = 0
      · simp [hv]
      · simp [hv]; omega
    · have h1 : l.drop i = [] := List.drop_eq_nil_of_le (by omega)
      have h2 : l.drop (i + 1) = [] := List.drop_eq_nil_of_le (by omega)
      have h3 : l[i]?.getD 0 = 0 := by
        rw [List.getElem?_eq_none (by omega)]
        rfl
      simp [h1, h2, h3]

theorem getConnectedClientsCount_le (l : List Nat) :
    getConnectedClientsCount l ≤ DEFAULT_MAXCLIENTS := by
  unfold getConnectedClientsCount
  rw [countLoop_spec, Nat.zero_add]
  exact (List.countP_le_length _).trans (List.length_take_le _ _)

theorem getConnectedClientsCount_eq_countP (l : List Nat) (hlen : l.length = 30) :
    getConnectedClientsCount l = l.countP (fun v => decide (v ≠ 0)) := by
  unfold getConnectedClientsCount
  rw [countLoop_spec, Nat.zero_add, List.drop_zero]
  have : DEFAULT_MAXCLIENTS = l.length := by rw [hlen]; rfl
  rw [this, List.take_length]

/-! ## The properties -/

/-- C1, as the code has it: for a request whose extracted path `p` is none of
`/`, `/index.html`, `/error.html`, and a file stored at `resolvePathname p`,
`processGetRequest` returns `HTTP/1.1 200 OK`, a blank line and the bytes of the
file that precede its first zero byte; these are all the bytes of the file,
unchanged and in order, when the file holds no zero byte. -/
theorem processGetRequest_ok_body (fs : FileSystem) (req p : CStr) (content : List Char)
    (hp : extractPath req = some p)
    (h1 : p ≠ "/".toList) (h2 : p ≠ "/index.html".toList) (h3 : p ≠ "/error.html".toList)
    (hf : fs (resolvePathname p) = some content) :
    (∃ body rest, content = body ++ rest ∧ NUL ∉ body ∧ (rest = [] ∨ rest.head? = some NUL) ∧
      processGetRequest fs req = some ("HTTP/1.1 200 OK\n\n".toList ++ body)) ∧
    (NUL ∉ content →
      processGetRequest fs req = some ("HTTP/1.1 200 OK\n\n".toList ++ content)) := by
  have hl : loadedFile p = p := by
    unfold loadedFile
    rw [if_neg (by simp only [not_or]; exact ⟨h1, h2⟩)]
  have hfound := processGetRequest_found fs req p content hp (by rw [hl]; exact hf)
  rw [if_neg h3] at hfound
  have hv : "HTTP/1.1 ".toList ++ "200 OK".toList ++ "\n\n".toList
      = "HTTP/1.1 200 OK\n\n".toList := by decide
  rw [hv] at hfound
  constructor
  · obtain ⟨rest, hr1, hr2, hr3⟩ := cstr_split content
    exact ⟨cstr content, rest, hr1, hr2, hr3, hfound⟩
  · intro hn
    rw [hfound, cstr_of_no_NUL content hn]

/-- Witness of C1: `GET /a.txt` with the file `a.txt` holding `hello`. -/
theorem processGetRequest_ok_body_witness :
    processGetRequest (singleFile "C:\\webserver\\a.txt".toList "hello".toList)
        "GET /a.txt HTTP/1.1\r\n\r\n".toList
      = some ("HTTP/1.1 200 OK\n\n".toList ++ "hello".toList) :=
  (processGetRequest_ok_body (singleFile "C:\\webserver\\a.txt".toList "hello".toList)
    "GET /a.txt HTTP/1.1\r\n\r\n".toList "/a.txt".toList "hello".toList
    (by decide) (by decide) (by decide) (by decide) (by decide)).2 (by decide)

/-- Counterexample to C1 as stated: the file `a.bin` holds the three bytes
`a`, zero, `b`; the response to `GET /a.bin` carries only the `a`. -/
theorem processGetRequest_ok_body_zero_byte :
    extractPath "GET /a.bin HTTP/1.1\r\n\r\n".toList = some "/a.bin".toList ∧
    singleFile "C:\\webserver\\a.bin".toList ['a', NUL, 'b']
        (resolvePathname "/a.bin".toList) = some ['a', NUL, 'b'] ∧
    processGetRequest (singleFile "C:\\webserver\\a.bin".toList ['a', NUL, 'b'])
        "GET /a.bin HTTP/1.1\r\n\r\n".toList = some "HTTP/1.1 200 OK\n\na".toList ∧
    processGetRequest (singleFile "C:\\webserver\\a.bin".toList ['a', NUL, 'b'])
        "GET /a.bin HTTP/1.1\r\n\r\n".toList
      ≠ some ("HTTP/1.1 200 OK\n\n".toList ++ ['a', NUL, 'b']) := by
  decide

/-- C2, as the code has it: when the file the handler loads for the extracted
path (`/index.html` for `/` and `/index.html`, the path itself otherwise) cannot
be opened and `/404.html` exists, `processGetRequest` returns
`HTTP/1.1 404 Not Found`, a blank line and the bytes of `/404.html` that precede
its first zero byte: all of its bytes when it holds none. -/
theorem processGetRequest_not_found (fs : FileSystem) (req p : CStr) (page : List Char)
    (hp : extractPath req = some p)
    (hf : fs (resolvePathname (loadedFile p)) = none)
    (h404 : fs (resolvePathname "/404.html".toList) = some page) :
    (∃ body rest, page = body ++ rest ∧ NUL ∉ body ∧ (rest = [] ∨ rest.head? = some NUL) ∧
      processGetRequest fs req = some ("HTTP/1.1 404 Not Found\n\n".toList ++ body)) ∧
    (NUL ∉ page →
      processGetRequest fs req = some ("HTTP/1.1 404 Not Found\n\n".toList ++ page)) := by
  have hm := processGetRequest_missing fs req p hp hf
  rw [h404] at hm
  have hm : processGetRequest fs req
      = some ("HTTP/1.1 404 Not Found\n\n".toList ++ cstr page) := hm
  constructor
  · obtain ⟨rest, hr1, hr2, hr3⟩ := cstr_split page
    exact ⟨cstr page, rest, hr1, hr2, hr3, hm⟩
  · intro hn
    rw [hm, cstr_of_no_NUL page hn]

/-- Witness of C2: `GET /nope` under a root that holds only `404.html`. -/
theorem processGetRequest_not_found_witness :
    processGetRequest (singleFile "C:\\webserver\\404.html".toList "gone".toList)
        "GET /nope HTTP/1.1\r\n\r\n".toList
      = some ("HTTP/1.1 404 Not Found\n\n".toList ++ "gone".toList) :=
  (processGetRequest_not_found (singleFile "C:\\webserver\\404.html".toList "gone".toList)
    "GET /nope HTTP/1.1\r\n\r\n".toList "/nope".toList "gone".toList
    (by decide) (by decide) (by decide)).2 (by decide)

/-- Counterexample to C2 as stated: `404.html` holds the three bytes `x`, zero,
`y` and `/nope` names no file; the 404 response carries only the `x`. And for
the path `/`, which itself names no file under the root, the response is the
200 response with the content of `index.html`. -/
theorem processGetRequest_not_found_zero_byte :
    (extractPath "GET /nope HTTP/1.1\r\n\r\n".toList = some "/nope".toList ∧
      singleFile "C:\\webserver\\404.html".toList ['x', NUL, 'y']
        (resolvePathname "/nope".toList) = none ∧
      singleFile "C:\\webserver\\404.html".toList ['x', NUL, 'y']
        (resolvePathname "/404.html".toList) = some ['x', NUL, 'y'] ∧
      processGetRequest (singleFile "C:\\webserver\\404.html".toList ['x', NUL, 'y'])
        "GET /nope HTTP/1.1\r\n\r\n".toList = some "HTTP/1.1 404 Not Found\n\nx".toList ∧
      processGetRequest (singleFile "C:\\webserver\\404.html".toList ['x', NUL, 'y'])
        "GET /nope HTTP/1.1\r\n\r\n".toList
        ≠ some ("HTTP/1.1 404 Not Found\n\n".toList ++ ['x', NUL, 'y'])) ∧
    (extractPath "GET / HTTP/1.1\r\n\r\n".toList = some "/".toList ∧
      singleFile "C:\\webserver\\index.html".toList "hi".toList
        (resolvePathname "/".toList) = none ∧
      processGetRequest (singleFile "C:\\webserver\\index.html".toList "hi".toList)
        "GET / HTTP/1.1\r\n\r\n".toList = some "HTTP/1.1 200 OK\n\nhi".toList) := by
  decide

/-- C3, as the code has it: for a request whose extracted path is
`/error.html`, the response begins with the status line
`HTTP/1.1 500 Internal Server Error` when `error.html` exists, and with
`HTTP/1.1 404 Not Found` when `error.html` does not exist and `404.html`
does. -/
theorem processGetRequest_error_page (fs : FileSystem) (req : CStr)
    (hp : extractPath req = some "/error.html".toList) :
    (∀ page, fs (resolvePathname "/error.html".toList) = some page →
      ∃ body, processGetRequest fs req
        = some ("HTTP/1.1 500 Internal Server Error".toList ++ "\n\n".toList ++ body)) ∧
    (fs (resolvePathname "/error.html".toList) = none →
      ∀ page, fs (resolvePathname "/404.html".toList) = some page →
        ∃ body, processGetRequest fs req
          = some ("HTTP/1.1 404 Not Found".toList ++ "\n\n".toList ++ body)) := by
  have hl : loadedFile "/error.html".toList = "/error.html".toList := by decide
  constructor
  · intro page hpage
    have hfound := processGetRequest_found fs req _ page hp (by rw [hl]; exact hpage)
    rw [if_pos rfl] at hfound
    have hv : "HTTP/1.1 ".toList ++ "500 Internal Server Error".toList
        = "HTTP/1.1 500 Internal Server Error".toList := by decide
    rw [hv] at hfound
    exact ⟨cstr page, hfound⟩
  · intro hnone page hpage
    have hm := processGetRequest_missing fs req _ hp (by rw [hl]; exact hnone)
    rw [hpage] at hm
    have hv : "HTTP/1.1 404 Not Found\n\n".toList
        = "HTTP/1.1 404 Not Found".toList ++ "\n\n".toList := by decide
    rw [hv] at hm
    exact ⟨cstr page, hm⟩

/-- Witness of C3: `GET /error.html` with `error.html` holding `oops`. -/
theorem processGetRequest_error_page_witness :
    ∃ body, processGetRequest (singleFile "C:\\webserver\\error.html".toList "oops".toList)
        "GET /error.html HTTP/1.1\r\n\r\n".toList
      = some ("HTTP/1.1 500 Internal Server Error".toList ++ "\n\n".toList ++ body) :=
  (processGetRequest_error_page (singleFile "C:\\webserver\\error.html".toList "oops".toList)
    "GET /error.html HTTP/1.1\r\n\r\n".toList (by decide)).1 "oops".toList (by decide)

/-- Counterexample to C3 as stated: under a root that holds `404.html` (with
the content `gone`) and no `error.html`, the response to `GET /error.html` is
the 404 response with that page and does not begin with
`HTTP/1.1 500 Internal Server Error`. -/
theorem processGetRequest_error_page_absent :
    extractPath "GET /error.html HTTP/1.1\r\n\r\n".toList = some "/error.html".toList ∧
    singleFile "C:\\webserver\\404.html".toList "gone".toList
      (resolvePathname "/error.html".toList) = none ∧
    processGetRequest (singleFile "C:\\webserver\\404.html".toList "gone".toList)
        "GET /error.html HTTP/1.1\r\n\r\n".toList
      = some "HTTP/1.1 404 Not Found\n\ngone".toList ∧
    "HTTP/1.1 500 Internal Server Error".toList.isPrefixOf
      "HTTP/1.1 404 Not Found\n\ngone".toList = false := by
  decide

/-- C4, as the code has it: for a request that holds the characters `GET`
nowhere, whatever else it carries, `getHTTPResponse` returns exactly the fixed
405 response, under every state of the file system. -/
theorem getHTTPResponse_method_not_allowed (fs : FileSystem) (req : CStr)
    (h : ¬ "GET".toList <:+: req) :
    getHTTPResponse fs req
      = some "HTTP/1.1 405 Method Not Allowed\n\n<h1>405 Method Not Allowed</h1>".toList ∧
    ∀ fs₂ : FileSystem, getHTTPResponse fs₂ req = getHTTPResponse fs req := by
  have h405 : ∀ f : FileSystem, getHTTPResponse f req = some methodNotAllowed :=
    fun f => getHTTPResponse_of_not_GET f req h
  exact ⟨h405 fs, fun f => by rw [h405 f, h405 fs]⟩

/-- Witness of C4: the request `POST / HTTP/1.1` with an empty header block. -/
theorem getHTTPResponse_method_not_allowed_witness :
    getHTTPResponse emptyRoot "POST / HTTP/1.1\r\n\r\n".toList
      = some "HTTP/1.1 405 Method Not Allowed\n\n<h1>405 Method Not Allowed</h1>".toList :=
  (getHTTPResponse_method_not_allowed emptyRoot "POST / HTTP/1.1\r\n\r\n".toList
    (by decide)).1

/-- Counterexample to C4 as stated: the first word of `POST /GET HTTP/1.1` is
`POST`, yet the response is built from the file system: the 200 response with
the file when `C:\webserver\GET` exists, the 404 response with the page when
only `404.html` exists. -/
theorem getHTTPResponse_post_with_GET_in_path :
    methodToken "POST /GET HTTP/1.1\r\n\r\n".toList = "POST".toList ∧
    methodToken "POST /GET HTTP/1.1\r\n\r\n".toList ≠ "GET".toList ∧
    getHTTPResponse (singleFile "C:\\webserver\\GET".toList "secret".toList)
        "POST /GET HTTP/1.1\r\n\r\n".toList
      = some "HTTP/1.1 200 OK\n\nsecret".toList ∧
    getHTTPResponse (singleFile "C:\\webserver\\GET".toList "secret".toList)
        "POST /GET HTTP/1.1\r\n\r\n".toList
      ≠ some "HTTP/1.1 405 Method Not Allowed\n\n<h1>405 Method Not Allowed</h1>".toList ∧
    getHTTPResponse (singleFile "C:\\webserver\\404.html".toList "gone".toList)
        "POST /GET HTTP/1.1\r\n\r\n".toList
      = some "HTTP/1.1 404 Not Found\n\ngone".toList := by
  decide

/-- C5, the code where the claim fails: under a root that holds neither
`index.html` nor `404.html`, the GET request for `/` and the GET request for
`/index.html` both reach `free(content)` with `content` the string literal, and
neither receives a response from `getHTTPResponse`. -/
theorem getHTTPResponse_root_index_no_files :
    getHTTPRequestMethod "GET / HTTP/1.1\r\n\r\n".toList = some "GET".toList ∧
    getHTTPRequestMethod "GET /index.html HTTP/1.1\r\n\r\n".toList = some "GET".toList ∧
    extractPath "GET / HTTP/1.1\r\n\r\n".toList = some "/".toList ∧
    extractPath "GET /index.html HTTP/1.1\r\n\r\n".toList = some "/index.html".toList ∧
    emptyRoot (resolvePathname "/index.html".toList) = none ∧
    emptyRoot (resolvePathname "/404.html".toList) = none ∧
    getHTTPResponse emptyRoot "GET / HTTP/1.1\r\n\r\n".toList = none ∧
    getHTTPResponse emptyRoot "GET /index.html HTTP/1.1\r\n\r\n".toList = none := by
  decide

/-- C6: for a client table of 30 slots and a newly accepted handle `h` other
than 0, the insert step of `acceptNewConnection` changes at most one slot. If
some slot holds 0, the lowest such slot receives `h`, every other slot keeps its
value and the occupied count grows by one; if no slot holds 0, the table is
unchanged. In both cases the table keeps its 30 slots and the count that
`getConnectedClientsCount` reports is at most 30. -/
theorem acceptNewConnection_insert (table : List Nat) (h : Nat)
    (hlen : table.length = 30) (hh : h ≠ 0) :
    ∃ table₂,
      acceptNewConnection (some h) table
        = (1, table₂, some (getConnectedClientsCount table₂)) ∧
      table₂.length = 30 ∧
      getConnectedClientsCount table₂ ≤ 30 ∧
      ((∃ i, i < 30 ∧ table[i]? = some 0 ∧ (∀ j, j < i → table[j]? ≠ some 0) ∧
          table₂[i]? = some h ∧ (∀ j, j ≠ i → table₂[j]? = table[j]?) ∧
          getConnectedClientsCount table₂ = getConnectedClientsCount table + 1) ∨
        ((∀ i, i < 30 → table[i]? ≠ some 0) ∧ table₂ = table)) := by
  have hslot : ∀ k, k < 30 → (table.getD k 0 = 0 ↔ table[k]? = some 0) := by
    intro k hk
    have hk2 : k < table.length := by omega
    rw [List.getD_eq_getElem table 0 hk2, List.getElem?_eq_getElem hk2]
    simp
  refine ⟨acceptLoop h table DEFAULT_MAXCLIENTS 0, rfl, ?_, getConnectedClientsCount_le _, ?_⟩
  · rcases acceptLoop_spec h table DEFAULT_MAXCLIENTS 0 with ⟨k, -, -, -, -, hk⟩ | ⟨-, heq⟩
    · rw [hk, List.length_set, hlen]
    · rw [heq, hlen]
  · rcases acceptLoop_spec h table DEFAULT_MAXCLIENTS 0 with
      ⟨k, -, hk2, hk3, hk4, hk5⟩ | ⟨hall, heq⟩
    · left
      have hk30 : k < 30 := by simpa [DEFAULT_MAXCLIENTS] using hk2
      have hkl : k < table.length := by omega
      refine ⟨k, hk30, (hslot k hk30).mp hk3, ?_, ?_, ?_, ?_⟩
      · intro j hj hj0
        exact hk4 j (Nat.zero_le _) hj ((hslot j (by omega)).mpr hj0)
      · rw [hk5, List.getElem?_set_self hkl]
      · intro j hj
        rw [hk5, List.getElem?_set_ne (fun e => hj e.symm)]
      · have hzero : table[k] = 0 := by
          rw [← List.getD_eq_getElem table 0 hkl]; exact hk3
        rw [getConnectedClientsCount_eq_countP _ (by rw [hk5, List.length_set, hlen]),
          getConnectedClientsCount_eq_countP _ hlen, hk5, List.countP_set _ _ _ _ hkl, hzero]
        simp [hh]
    · right
      refine ⟨?_, heq⟩
      intro i hi hi0
      exact hall i (Nat.zero_le _) (by simpa [DEFAULT_MAXCLIENTS] using hi)
        ((hslot i hi).mpr hi0)

/-- Witness of C6: inserting the handle 7 into a table whose slot 0 is taken
and whose other slots are empty, and into a table with no empty slot. -/
theorem acceptNewConnection_insert_witness :
    (∃ table₂,
      acceptNewConnection (some 7) oneClient
        = (1, table₂, some (getConnectedClientsCount table₂)) ∧
      table₂.length = 30 ∧
      getConnectedClientsCount table₂ ≤ 30 ∧
      ((∃ i, i < 30 ∧ oneClient[i]? = some 0 ∧ (∀ j, j < i → oneClient[j]? ≠ some 0) ∧
          table₂[i]? = some 7 ∧ (∀ j, j ≠ i → table₂[j]? = oneClient[j]?) ∧
          getConnectedClientsCount table₂ = getConnectedClientsCount oneClient + 1) ∨
        ((∀ i, i < 30 → oneClient[i]? ≠ some 0) ∧ table₂ = oneClient))) ∧
    acceptNewConnection (some 7) oneClient = (1, 5 :: 7 :: List.replicate 28 0, some 2) ∧
    acceptNewConnection (some 7) fullTable = (1, fullTable, some 30) :=
  ⟨acceptNewConnection_insert oneClient 7 (by decide) (by decide), by decide, by decide⟩

/-- C7: for a URL path that begins with `/`, `resolvePathname` returns the
server root `C:\webserver` followed by one character for each character of the
input, in place: a backslash for a slash, the character itself otherwise. The
length of the result is the length of the root plus the length of the input;
nothing is removed or rejected. -/
theorem resolvePathname_spec (filename : CStr) (h : filename.head? = some '/') :
    resolvePathname filename
      = "C:\\webserver".toList ++ filename.map (fun c => if c = '/' then '\\' else c) ∧
    (resolvePathname filename).length = "C:\\webserver".toList.length + filename.length ∧
    (resolvePathname filename).take 12 = "C:\\webserver".toList ∧
    (resolvePathname filename)[12]? = some '\\' ∧
    ∀ i c, filename[i]? = some c →
      (resolvePathname filename)[12 + i]? = some (if c = '/' then '\\' else c) := by
  have hloop : ∀ s : CStr, resolveLoop s = s.map (fun c => if c = '/' then '\\' else c) := by
    intro s
    induction s with
    | nil => rfl
    | cons c cs ih => simp [resolveLoop, ih]
  have hroot : DEFAULT_SERVERROOT.length = 12 := by decide
  have hr : resolvePathname filename
      = DEFAULT_SERVERROOT ++ filename.map (fun c => if c = '/' then '\\' else c) := by
    simp only [resolvePathname, strcat, strcpy, hloop]
  have hget : ∀ i c, filename[i]? = some c →
      (resolvePathname filename)[12 + i]? = some (if c = '/' then '\\' else c) := by
    intro i c hc
    rw [hr, ← hroot, List.getElem?_append_right (Nat.le_add_right _ _)]
    simp [hc]
  refine ⟨hr, ?_, ?_, ?_, hget⟩
  · rw [hr]
    simp only [List.length_append, List.length_map]
    rfl
  · rw [hr, ← hroot, List.take_left]
    rfl
  · cases filename with
    | nil => simp at h
    | cons c cs =>
      simp only [List.head?_cons, Option.some.injEq] at h
      subst h
      have := hget 0 '/' (by simp)
      simpa using this

/-- Witness of C7: a path with a `..` segment passes through. -/
theorem resolvePathname_spec_witness :
    resolvePathname "/../secret.txt".toList = "C:\\webserver\\..\\secret.txt".toList ∧
    (resolvePathname "/../secret.txt".toList).length
      = "C:\\webserver".toList.length + "/../secret.txt".toList.length :=
  ⟨by decide, (resolvePathname_spec "/../secret.txt".toList (by decide)).2.1⟩

/-- C8: when the read of `processSocketActivity` returns zero bytes, for a
client table of 30 slots and a slot index below 30, the handler sends nothing,
closes the connection of that slot, sets the slot to 0, leaves every other slot
unchanged and returns 1. -/
theorem processSocketActivity_zero_read (fs : FileSystem) (sys : SocketCalls)
    (table : List Nat) (i : Nat) (hi : i < 30) (hlen : table.length = 30)
    (hz : sys.recvResult = 0) :
    ∃ table₂ effects,
      processSocketActivity fs sys table i = some (1, table₂, effects) ∧
      (∀ socket data, Effect.send socket data ∉ effects) ∧
      (∃ socket, table[i]? = some socket ∧ Effect.closesocket socket ∈ effects) ∧
      table₂.length = 30 ∧ table₂[i]? = some 0 ∧ ∀ j, j ≠ i → table₂[j]? = table[j]? := by
  have hil : i < table.length := by omega
  have hne : ¬ ((0 : Int) = SOCKET_ERROR) := by decide
  refine ⟨table.set i 0, [Effect.logSocket (table.getD i 0) "Desconectado.",
    Effect.closesocket (table.getD i 0)], ?_, ?_, ?_, ?_, ?_, ?_⟩
  · simp only [processSocketActivity, hz, hne, if_false, if_true, List.nil_append,
      List.cons_append]
  · intro socket data hmem
    simp at hmem
  · refine ⟨table.getD i 0, ?_, by simp⟩
    rw [List.getD_eq_getElem table 0 hil, List.getElem?_eq_getElem hil]
  · rw [List.length_set, hlen]
  · rw [List.getElem?_set_self hil]
  · intro j hj
    rw [List.getElem?_set_ne (fun e => hj e.symm)]

/-- Witness of C8: a zero-byte read on slot 0 of a table with one client. -/
theorem processSocketActivity_zero_read_witness :
    (∃ table₂ effects,
      processSocketActivity emptyRoot ⟨0, [], 0, 0, 0⟩ oneClient 0
        = some (1, table₂, effects) ∧
      (∀ socket data, Effect.send socket data ∉ effects) ∧
      (∃ socket, oneClient[0]? = some socket ∧ Effect.closesocket socket ∈ effects) ∧
      table₂.length = 30 ∧ table₂[0]? = some 0 ∧
      ∀ j, j ≠ 0 → table₂[j]? = oneClient[j]?) ∧
    processSocketActivity emptyRoot ⟨0, [], 0, 0, 0⟩ oneClient 0
      = some (1, List.replicate 30 0,
          [Effect.logSocket 5 "Desconectado.", Effect.closesocket 5]) :=
  ⟨processSocketActivity_zero_read emptyRoot ⟨0, [], 0, 0, 0⟩ oneClient 0
    (by decide) (by decide) rfl, by decide⟩

/-- C9, the code at failing reads. With a failed read (`recv` returns
`SOCKET_ERROR`) the handler goes on to build and send a response from the
request buffer, and its return value follows `send` and `shutdown`, not the kind
of the error. After a reset by peer, with the buffer starting with a zero byte
and a failing `send`, it sends the 405 response, returns 0 and leaves the slot
occupied. After another error (here 10060, a timeout), with the buffer holding
`GET / HTTP/1.1`, `index.html` present and `send` and `shutdown` succeeding, it
sends the 200 response, empties the slot and returns 1. -/
theorem processSocketActivity_recv_error_falls_through :
    processSocketActivity emptyRoot ⟨SOCKET_ERROR, [], WSAECONNRESET, SOCKET_ERROR, 0⟩
        oneClient 0
      = some (0, oneClient,
          [Effect.logSocket 5 "Desconectou inesperadamente.",
            Effect.logHTTPMessage "HTTP Request" [] 5,
            Effect.send 5 methodNotAllowed,
            Effect.logSockError "Falha ao enviar a resposta HTTP."]) ∧
    processSocketActivity (singleFile "C:\\webserver\\index.html".toList "home".toList)
        ⟨SOCKET_ERROR, "GET / HTTP/1.1\r\n\r\n".toList, 10060, 21, 0⟩ oneClient 0
      = some (1, List.replicate 30 0,
          [Effect.logSockError "Falha ao receber dados do cliente.",
            Effect.logHTTPMessage "HTTP Request" "GET / HTTP/1.1\r\n\r\n".toList 5,
            Effect.send 5 "HTTP/1.1 200 OK\n\nhome".toList,
            Effect.shutdownSend 5,
            Effect.logHTTPMessage "HTTP Response" "HTTP/1.1 200 OK\n\nhome".toList 5,
            Effect.logSocket 5 "Atendido. Fechando a conexao...",
            Effect.closesocket 5]) := by
  decide

/-- C10, the code where the claim fails: the request `GET /nope HTTP/1.1`
holds `GET` and a `/` with a space after its first `/`, and its path extraction
is defined (`/nope`); under a root that holds neither `nope` nor `404.html` the
call reaches `free(content)` with `content` the string literal, and
`getHTTPResponse` yields no response. -/
theorem getHTTPResponse_no_response_without_files :
    "GET".toList <:+: "GET /nope HTTP/1.1\r\n\r\n".toList ∧
    (∃ pre rest, "GET /nope HTTP/1.1\r\n\r\n".toList = pre ++ '/' :: rest ∧
      '/' ∉ pre ∧ ' ' ∈ rest) ∧
    extractPath "GET /nope HTTP/1.1\r\n\r\n".toList = some "/nope".toList ∧
    emptyRoot (resolvePathname "/nope".toList) = none ∧
    emptyRoot (resolvePathname "/404.html".toList) = none ∧
    getHTTPResponse emptyRoot "GET /nope HTTP/1.1\r\n\r\n".toList = none :=
  ⟨by decide, ⟨"GET ".toList, "nope HTTP/1.1\r\n\r\n".toList, by decide, by decide, by decide⟩,
    by decide, by decide, by decide, by decide⟩

end MiniHttpServer
